import Mathlib

/-
Verification development for the KSP-MGA-Planner trajectory-search core.

Shallow embedding conventions:
* JavaScript numbers are modelled as real numbers (ℝ); machine counters as ℕ.
* JavaScript strings are modelled as `List Char`; `split`/`trim` below mirror
  the semantics of `String.prototype.split('-')` and `String.prototype.trim`.
* Fallible code (thrown `Error`s) is modelled with `Except`/`Option`.
* Mutable loops are modelled by structural recursion on an explicit counter.
-/

namespace KSPMGA

/-! ### String utilities (JS `split` / `trim` over `List Char`) -/

/-- Splits a character list at every occurrence of `sep`, mirroring
JavaScript `str.split(sep)`: the empty string yields `[""]`, and separators
at the ends yield empty fields. -/
def splitAux (sep : Char) : List Char → List Char → List (List Char)
  | [], acc => [acc.reverse]
  | c :: rest, acc =>
    if c = sep then acc.reverse :: splitAux sep rest []
    else splitAux sep rest (c :: acc)

/-- JavaScript `str.split(sep)` for a single-character separator. -/
def split (sep : Char) (s : List Char) : List (List Char) := splitAux sep s []

/-- JavaScript `str.trim()`: removes whitespace from both ends. -/
def trim (s : List Char) : List Char :=
  ((s.dropWhile Char.isWhitespace).reverse.dropWhile Char.isWhitespace).reverse

/-! ### FlybySequence.fromString (src/unnamed/part_002)

`OrbitingBody` keeps just the fields `fromString` consults: the body id, its
display name, and the id of the body it orbits (`body.attractor.id`). -/

structure OrbitingBody where
  id : Nat
  name : List Char
  attractorId : Nat
deriving DecidableEq, Repr

/-- The inner `for(const body of system.orbiting)` search: the first body whose
name's first two characters (`name.substring(0, 2)`) equal the token. -/
def findBody (orbiting : List OrbitingBody) (tok : List Char) : Option OrbitingBody :=
  orbiting.find? (fun b => b.name.take 2 = tok)

/-- Error message thrown for a token matching no body. -/
def errInvalidInput : List Char := "Invalid custom sequence input.".data

/-- Error message thrown when a body's attractor differs from the first body's. -/
def errDifferentAttractor : List Char :=
  "All bodies of the sequence must orbit around the same body.".data

/-- Error message thrown when fewer than two bodies were parsed. -/
def errTooShort : List Char := "The sequence must contain at least two bodies.".data

/-- The token loop of `FlybySequence.fromString`: `first` tracks whether we are
at index `i == 0` (which records the attractor id), `attractor` is the recorded
attractor, `ids` the accumulated body ids.  On success returns the ids from
which the `FlybySequence` is constructed. -/
def seqLoop (orbiting : List OrbitingBody) :
    List (List Char) → Bool → Nat → List Nat → Except (List Char) (List Nat)
  | [], _, _, ids =>
    if ids.length ≤ 1 then Except.error errTooShort else Except.ok ids
  | tok :: rest, first, attractor, ids =>
    match findBody orbiting tok with
    | none => Except.error errInvalidInput
    | some b =>
      if first then seqLoop orbiting rest false b.attractorId (ids ++ [b.id])
      else if b.attractorId ≠ attractor then Except.error errDifferentAttractor
      else seqLoop orbiting rest false attractor (ids ++ [b.id])

/-- `FlybySequence.fromString(str, system)`: trims the input, splits it on
dashes, and runs the validation loop.  `Except.ok ids` models a successfully
constructed `FlybySequence`; `Except.error` models the thrown `Error`. -/
def fromString (str : List Char) (orbiting : List OrbitingBody) :
    Except (List Char) (List Nat) :=
  seqLoop orbiting (split '-' (trim str)) true 0 []

/-- Success condition of `fromString`, as a Boolean over the parsed tokens:
every token matches a body, every matched body shares the first matched body's
attractor, and at least two tokens were parsed. -/
def validSeq (orbiting : List OrbitingBody) (toks : List (List Char)) : Bool :=
  toks.all (fun t => (findBody orbiting t).isSome) &&
  (match toks with
   | [] => true
   | t0 :: rest =>
     match findBody orbiting t0 with
     | none => true
     | some b0 =>
       rest.all (fun t =>
         match findBody orbiting t with
         | none => true
         | some b => b.attractorId = b0.attractorId)) &&
  decide (2 ≤ toks.length)

/-! ### Agent dimension (src/src/dedicated-workers/trajectory-optimizer.ts, onWorkerRun)

`const numLegs = this._sequence.length - 1; const agentDim = 3 + numLegs*4 - 2;` -/

/-- Number of trajectory legs for a body sequence of the given length. -/
def numLegs (seqLength : Nat) : Nat := seqLength - 1

/-- Dimension of an agent (parameter vector) for a body sequence of the given
length, exactly as computed in `onWorkerRun`. -/
def agentDim (seqLength : Nat) : Nat := 3 + numLegs seqLength * 4 - 2

/-! ### The retry loop of `_computeTrajectory`
(src/src/dedicated-workers/trajectory-optimizer.ts, lines 144-175)

Each pass of the `while` loop re-randomizes the agent, resets the calculator
and recomputes, so successive passes are independent attempts; we index them
by the attempt counter.  An attempt is modelled by what the loop body
observes about it: whether `compute()`/`recomputeLegsSecondArcs()` threw, and
the trajectory value it produced (over which `Utils.hasNaN` is tested). -/

structure AttemptResult (T : Type) where
  threw : Bool
  traj : T
deriving Repr

/-- The loop's failure test: an exception was caught, or the assembled steps
contain a NaN (`failed || Utils.hasNaN(trajectory.steps)`). -/
def attemptFailed {T : Type} (hasNaN : T → Bool) (r : AttemptResult T) : Bool :=
  r.threw || hasNaN r.traj

/-- The `while(attempts < maxAttempts)` loop of `_computeTrajectory`, with
`fuel = maxAttempts - attempts`.  Returns `some` on the first non-failing
attempt, `none` when every attempt failed (modelling the fatal
`"Impossible to compute the trajectory."` error). -/
def computeLoop {T : Type} (att : Nat → AttemptResult T) (hasNaN : T → Bool) :
    Nat → Nat → Option T
  | _, 0 => none
  | i, fuel + 1 =>
    if attemptFailed hasNaN (att i) then computeLoop att hasNaN (i + 1) fuel
    else some (att i).traj

/-- `_computeTrajectory(agent, maxAttempts)` as a function of the attempt
outcomes. -/
def computeTrajectory {T : Type} (att : Nat → AttemptResult T) (hasNaN : T → Bool)
    (maxAttempts : Nat) : Option T :=
  computeLoop att hasNaN 0 maxAttempts

/-- `_computeTrajectory` with its default `maxAttempts = 1000`. -/
def computeTrajectoryDefault {T : Type} (att : Nat → AttemptResult T)
    (hasNaN : T → Bool) : Option T :=
  computeTrajectory att hasNaN 1000

/-! ### Best-trajectory tracker (fitness, lines 56-60; onWorkerRun line 110)

`if(trajectory.totalDeltaV < this._bestDeltaV){ this._bestDeltaV = ...;
this._bestTrajectory = trajectory; }` — the tracker state is the pair
`(bestDeltaV, bestTrajectory)`, updated atomically on strict improvement. -/

/-- One tracker update, performed by each fitness evaluation: the newly
evaluated `(cost, trajectory)` pair replaces the current best exactly when its
cost is strictly lower. -/
noncomputable def updateBest {T : Type} (best cand : ℝ × T) : ℝ × T :=
  if cand.1 < best.1 then cand else best

/-- The tracker state after a sequence of fitness evaluations, starting from
`init` (which is `(∞, ⊥)` at the start of a search, line 110). -/
noncomputable def foldBest {T : Type} (init : ℝ × T) (evals : List (ℝ × T)) : ℝ × T :=
  evals.foldl updateBest init

/-! ### 3D vectors and THREE.js `applyAxisAngle`

`Vector3.applyAxisAngle(axis, angle)` rotates the vector about a (unit) axis
by the given angle; for a unit axis the quaternion rotation THREE.js performs
coincides with the Rodrigues rotation formula used here. -/

abbrev Vec3 : Type := ℝ × ℝ × ℝ

def vadd (a b : Vec3) : Vec3 := (a.1 + b.1, a.2.1 + b.2.1, a.2.2 + b.2.2)

def vsmul (k : ℝ) (a : Vec3) : Vec3 := (k * a.1, k * a.2.1, k * a.2.2)

def vdot (a b : Vec3) : ℝ := a.1 * b.1 + a.2.1 * b.2.1 + a.2.2 * b.2.2

def vcross (a b : Vec3) : Vec3 :=
  (a.2.1 * b.2.2 - a.2.2 * b.2.1,
   a.2.2 * b.1 - a.1 * b.2.2,
   a.1 * b.2.1 - a.2.1 * b.1)

/-- Rodrigues rotation of `v` about the unit axis `axis` by `angle`
(THREE.js `v.applyAxisAngle(axis, angle)`). -/
noncomputable def applyAxisAngle (v axis : Vec3) (angle : ℝ) : Vec3 :=
  vadd (vadd (vsmul (Real.cos angle) v) (vsmul (Real.sin angle) (vcross axis v)))
    (vsmul (vdot axis v * (1 - Real.cos angle)) axis)

/-! ### Orbit (src/unnamed/part_000)

The `Orbit` constructor and its pure query methods.  The optional
`periapsis`/`apoapsis` fields (set only for `eccentricity < 1`) are modelled
with `Option ℝ`; `undefined` is `none`. -/

structure ICelestialBody where
  stdGravParam : ℝ

structure IOrbitData where
  semiMajorAxis : ℝ
  eccentricity : ℝ
  inclination : ℝ
  argOfPeriapsis : ℝ
  ascNodeLongitude : ℝ

structure Orbit where
  semiMajorAxis : ℝ
  apoapsis : Option ℝ
  periapsis : Option ℝ
  eccentricity : ℝ
  inclination : ℝ
  argOfPeriapsis : ℝ
  ascNodeLongitude : ℝ
  orbitalParam : ℝ
  meanMotion : ℝ
  ascNodeDir : Vec3
  periapsisDir : Vec3
  normal : Vec3

/-- `THREE.MathUtils.degToRad`. -/
noncomputable def degToRad (x : ℝ) : ℝ := x * Real.pi / 180

/-- The `Orbit` constructor: all fields are computed here, once, and the
structure is immutable afterwards (every operation below is a pure function
of an `Orbit` value). -/
noncomputable def mkOrbit (data : IOrbitData) (attractor : ICelestialBody)
    (anglesToRad : Bool) : Orbit :=
  let a := data.semiMajorAxis
  let e := data.eccentricity
  let inc := if anglesToRad then degToRad data.inclination else data.inclination
  let argPe := if anglesToRad then degToRad data.argOfPeriapsis else data.argOfPeriapsis
  let lan := if anglesToRad then degToRad data.ascNodeLongitude else data.ascNodeLongitude
  let ascNodeDir := applyAxisAngle (1, 0, 0) (0, 1, 0) lan
  let normal := applyAxisAngle (0, 1, 0) ascNodeDir inc
  let periapsisDir := applyAxisAngle ascNodeDir normal argPe
  { semiMajorAxis := a
    eccentricity := e
    orbitalParam := a * (1 - e ^ 2)
    meanMotion := Real.sqrt (attractor.stdGravParam / |a| ^ 3)
    periapsis := if e < 1 then some (a * (1 - e)) else none
    apoapsis := if e < 1 then some (2 * a - a * (1 - e)) else none
    inclination := inc
    argOfPeriapsis := argPe
    ascNodeLongitude := lan
    ascNodeDir := ascNodeDir
    periapsisDir := periapsisDir
    normal := normal }

/-- `Orbit.radius`: `orbitalParam / (1 + eccentricity * cos ν)`. -/
noncomputable def radius (o : Orbit) (trueAnomaly : ℝ) : ℝ :=
  o.orbitalParam / (1 + o.eccentricity * Real.cos trueAnomaly)

/-! ### Newton–Raphson loop of `solveTrueAnomalyAtDate`

Source: `prevX = M; x = M - f(M)/df(M); while(|x - prevX| > 1e-15 && n < 1000)
{ prevX = x; x -= f(x)/df(x); n++ }; return x;`.  The loop counter `n` runs
from `0` to at most `1000`; `newtonGo` carries `fuel = 1000 - n`. -/

noncomputable def newtonGo (f df : ℝ → ℝ) : Nat → ℝ → ℝ → ℝ
  | 0, _, x => x
  | fuel + 1, prevX, x =>
    if 1e-15 < |x - prevX| then newtonGo f df fuel x (x - f x / df x) else x

/-- The full `newton` closure: seed `x0 = M`, one unconditional step, then the
bounded loop. -/
noncomputable def newton (f df : ℝ → ℝ) (M : ℝ) : ℝ :=
  newtonGo f df 1000 M (M - f M / df M)

/-- The pure Newton iterate sequence from seed `M` (used to state that the
solver always returns one of its iterates). -/
noncomputable def newtonSeq (f df : ℝ → ℝ) (M : ℝ) : Nat → ℝ
  | 0 => M
  | k + 1 => newtonSeq f df M k - f (newtonSeq f df M k) / df (newtonSeq f df M k)

/-- The elliptical branch's eccentric anomaly: Newton on
`f(x) = x - e sin x - M`, `f'(x) = 1 - e cos x`. -/
noncomputable def keplerE (e M : ℝ) : ℝ :=
  newton (fun x => x - e * Real.sin x - M) (fun x => 1 - e * Real.cos x) M

/-- The hyperbolic branch's anomaly: Newton on
`f(x) = e sinh x - x - M`, `f'(x) = e cosh x - 1`. -/
noncomputable def keplerH (e M : ℝ) : ℝ :=
  newton (fun x => e * Real.sinh x - x - M) (fun x => e * Real.cosh x - 1) M

/-- `Orbit.solveTrueAnomalyAtDate(meanAnomaly0, epoch, date)`: propagates the
mean anomaly, solves Kepler's equation by the bounded Newton iteration, and
converts the resulting anomaly to true anomaly by the half-angle tangent
identity, branching on `e < 1`. -/
noncomputable def solveTrueAnomalyAtDate (o : Orbit) (meanAnomaly0 epoch date : ℝ) : ℝ :=
  let e := o.eccentricity
  let M := meanAnomaly0 + o.meanMotion * (date - epoch)
  if e < 1 then
    2 * Real.arctan (Real.sqrt ((1 + e) / (1 - e)) * Real.tan (keplerE e M * 0.5))
  else
    2 * Real.arctan (Real.sqrt ((e + 1) / (e - 1)) * Real.tanh (keplerH e M * 0.5))

/-- Modelled from the spec: the round-trip test harness of §8 ("solving for
true anomaly then reconstructing mean anomaly from it") is not part of the
repository's sources; following the spec's words, the reconstruction inverts
the half-angle tangent identity to get the eccentric anomaly back and applies
Kepler's equation `M = E - e sin E` (elliptical regime). -/
noncomputable def meanAnomalyFromTrueAnomaly (e nu : ℝ) : ℝ :=
  let E := 2 * Real.arctan (Real.sqrt ((1 - e) / (1 + e)) * Real.tan (nu * 0.5))
  E - e * Real.sin E

/-! ### Fitness evaluator (trajectory-optimizer.ts, lines 53-92)

The fields of `TrajData` are exactly the queries `fitness` makes of the
assembled `TrajectoryCalculator`: `totalDeltaV`, `totalDuration`, and the
last step's attractor id and orbital elements. -/

structure SystemBody where
  radius : ℝ
  stdGravParam : ℝ

structure OrbitElts where
  semiMajorAxis : ℝ
  inclination : ℝ

structure TrajStep where
  attractorId : Nat
  orbitElts : OrbitElts

structure TrajData where
  totalDeltaV : ℝ
  totalDuration : ℝ
  steps : List TrajStep

structure TrajectoryUserSettings where
  noInsertion : Bool
  destAltitude : ℝ
  maxDuration : ℝ

/-- Modelled from the spec: `Physics3D.velocityAtRadius` lives in
`libs/physics-3d.js`, which is not among the sources; §4.3(b) specifies it as
the orbit's speed at the given radius "computed from vis-viva at that
radius", i.e. `sqrt(μ (2/r − 1/a))`. -/
noncomputable def velocityAtRadius (elts : OrbitElts) (body : SystemBody) (r : ℝ) : ℝ :=
  Real.sqrt (body.stdGravParam * (2 / r - 1 / elts.semiMajorAxis))

/-- Modelled from the spec: `Physics3D.circularVelocity` is likewise outside
the sources; the speed of a circular orbit of radius `r` is `sqrt(μ / r)`. -/
noncomputable def circularVelocity (body : SystemBody) (r : ℝ) : ℝ :=
  Real.sqrt (body.stdGravParam / r)

/-- Fallback step used to model `steps[steps.length-1]`; an assembled
trajectory always has at least one step. -/
def dfltStep : TrajStep := { attractorId := 0, orbitElts := { semiMajorAxis := 0, inclination := 0 } }

/-- The fitness function built in `onWorkerRun` (lines 53-92), minus its
side effects on the best-trajectory tracker (modelled by `updateBest`):
`totDV + totDV*|inc|*0.1 + periVelCost + max(0, duration - maxDuration)*totDV`. -/
noncomputable def fitness (system : Nat → SystemBody) (settings : TrajectoryUserSettings)
    (traj : TrajData) : ℝ :=
  let lastStep := traj.steps.getLastD dfltStep
  let finalOrbit := lastStep.orbitElts
  let totDV := traj.totalDeltaV
  let lastInc := |finalOrbit.inclination|
  let periVelCost :=
    if settings.noInsertion then
      let finalBody := system lastStep.attractorId
      let periapsis := settings.destAltitude + finalBody.radius
      let periVel := velocityAtRadius finalOrbit finalBody periapsis
      let circDV := periVel - circularVelocity finalBody periapsis
      circDV
    else 0
  let durationOverflow := max 0 (traj.totalDuration - settings.maxDuration)
  let durationCost := durationOverflow * totDV
  totDV + totDV * lastInc * 0.1 + periVelCost + durationCost

/-! ### Ejection angle (src/unnamed/part_003, `_calculateManeuvresDetails`,
lines 212-229)

The maneuver node position and the body velocity are projected into the xz
plane before being normalized, so the computation below is over 2D vectors
`u = (nodePos.x, nodePos.z)` and `v = (bodyVel.x, bodyVel.z)`. -/

/-- THREE.js `Vector2.normalize()`. -/
noncomputable def normalize2 (v : ℝ × ℝ) : ℝ × ℝ :=
  let len := Real.sqrt (v.1 ^ 2 + v.2 ^ 2)
  (v.1 / len, v.2 / len)

/-- The clamp applied to the dot product before `acos`:
`Math.min(Math.max(d, -1), 1)`. -/
noncomputable def clampUnit (d : ℝ) : ℝ := min (max d (-1)) 1

/-- The ejection angle, in degrees, computed for an `"ejection"` maneuver:
`acos(clamped dot) * 180/π`, signed by the 2D cross product
`Math.sign(u.x*v.y - u.y*v.x)`. -/
noncomputable def ejectionAngle (nodePos bodyVel : ℝ × ℝ) : ℝ :=
  let u := normalize2 nodePos
  let v := normalize2 bodyVel
  let cosA := clampUnit (u.1 * v.1 + u.2 * v.2)
  Real.arccos cosA * 180 / Real.pi * Real.sign (u.1 * v.2 - u.2 * v.1)

/-! ## Helper lemmas -/

theorem updateBest_fst_le {T : Type} (b c : ℝ × T) : (updateBest b c).1 ≤ b.1 := by
  unfold updateBest
  split
  · linarith
  · exact le_refl _

theorem updateBest_fst_le_cand {T : Type} (b c : ℝ × T) : (updateBest b c).1 ≤ c.1 := by
  unfold updateBest
  split
  · exact le_refl _
  · exact le_of_not_lt (by assumption)

theorem foldBest_cons {T : Type} (init x : ℝ × T) (xs : List (ℝ × T)) :
    foldBest init (x :: xs) = foldBest (updateBest init x) xs := rfl

theorem foldBest_fst_le_init {T : Type} (l : List (ℝ × T)) :
    ∀ init : ℝ × T, (foldBest init l).1 ≤ init.1 := by
  induction l with
  | nil => intro init; exact le_refl _
  | cons x xs ih =>
    intro init
    calc (foldBest (updateBest init x) xs).1 ≤ (updateBest init x).1 := ih _
      _ ≤ init.1 := updateBest_fst_le _ _

theorem foldBest_fst_le_mem {T : Type} (l : List (ℝ × T)) :
    ∀ init : ℝ × T, ∀ e ∈ l, (foldBest init l).1 ≤ e.1 := by
  induction l with
  | nil => intro init e he; cases he
  | cons x xs ih =>
    intro init e he
    rcases List.mem_cons.1 he with h | h
    · subst h
      calc (foldBest (updateBest init e) xs).1 ≤ (updateBest init e).1 :=
            foldBest_fst_le_init _ _
        _ ≤ e.1 := updateBest_fst_le_cand _ _
    · exact ih _ e h

theorem computeLoop_none_iff {T : Type} (att : Nat → AttemptResult T) (hasNaN : T → Bool) :
    ∀ (fuel i : Nat), computeLoop att hasNaN i fuel = none ↔
      ∀ k < fuel, attemptFailed hasNaN (att (i + k)) = true := by
  intro fuel
  induction fuel with
  | zero => intro i; simp [computeLoop]
  | succ n ih =>
    intro i
    by_cases h : attemptFailed hasNaN (att i) = true
    · rw [computeLoop, if_pos h, ih]
      constructor
      · intro hall k hk
        match k, hk with
        | 0, _ => simpa using h
        | k + 1, hk =>
          have := hall k (by omega)
          simpa [Nat.add_assoc, Nat.add_comm 1 k] using this
      · intro hall k hk
        have := hall (k + 1) (by omega)
        simpa [Nat.add_assoc, Nat.add_comm 1 k] using this
    · rw [computeLoop, if_neg h]
      simp only [reduceCtorEq, false_iff, not_forall]
      exact ⟨0, by omega, by simpa using h⟩

theorem computeLoop_first_success {T : Type} (att : Nat → AttemptResult T)
    (hasNaN : T → Bool) :
    ∀ (fuel i j : Nat), j < fuel →
      (∀ k < j, attemptFailed hasNaN (att (i + k)) = true) →
      attemptFailed hasNaN (att (i + j)) = false →
      computeLoop att hasNaN i fuel = some (att (i + j)).traj := by
  intro fuel
  induction fuel with
  | zero => intro i j hj; omega
  | succ n ih =>
    intro i j hj hfail hok
    by_cases h : attemptFailed hasNaN (att i) = true
    · cases j with
      | zero => rw [Nat.add_zero] at hok; rw [hok] at h; cases h
      | succ j =>
        rw [computeLoop, if_pos h]
        have h1 : ∀ k < j, attemptFailed hasNaN (att (i + 1 + k)) = true := by
          intro k hk
          have := hfail (k + 1) (by omega)
          simpa [Nat.add_assoc, Nat.add_comm 1 k] using this
        have h2 : attemptFailed hasNaN (att (i + 1 + j)) = false := by
          simpa [Nat.add_assoc, Nat.add_comm 1 j] using hok
        have heq : i + 1 + j = i + (j + 1) := by omega
        have hres := ih (i + 1) j (by omega) h1 h2
        rw [heq] at hres
        exact hres
    · have hj0 : j = 0 := by
        by_contra hne
        exact h (hfail 0 (by omega))
      subst hj0
      rw [computeLoop, if_neg h, Nat.add_zero]

/-! ## Claim theorems -/

/-- C8 (counterexample): for a sequence of 3 bodies there are 2 legs, the code
computes an agent dimension of `3 + 2*4 - 2 = 9`, while the claimed formula
`3 + 4*(legs - 1) - 2` yields `5`. -/
theorem agentDim_claim_counterexample :
    numLegs 3 = 2 ∧ agentDim 3 = 9 ∧ 3 + 4 * (numLegs 3 - 1) - 2 = 5 ∧
      agentDim 3 ≠ 3 + 4 * (numLegs 3 - 1) - 2 := by decide

/-- C8 (amended): for every body sequence, the agent dimension equals
`3 + 4*legs - 2`, where `legs` is the number of trajectory legs, one fewer
than the number of bodies in the sequence. -/
theorem agentDim_eq (seqLength : Nat) : agentDim seqLength = 3 + 4 * numLegs seqLength - 2 := by
  unfold agentDim
  omega

/-- C3: the best-trajectory tracker holds the single lowest-cost trajectory
seen so far.  One update (`updateBest`) replaces the state only on a strictly
lower cost, and replaces it whole (the result is either the old pair or the
new pair, never a mix); consequently the recorded best cost after any run of
fitness evaluations (`foldBest`) is bounded by the initial cost and by every
evaluated cost, and is monotonically non-increasing as further evaluations
(later generations) are appended. -/
theorem bestTracker_correct {T : Type} (best cand init : ℝ × T)
    (l l2 : List (ℝ × T)) :
    (updateBest best cand = best ∨ updateBest best cand = cand) ∧
    (updateBest best cand ≠ best → cand.1 < best.1 ∧ updateBest best cand = cand) ∧
    (updateBest best cand).1 ≤ best.1 ∧
    (foldBest init l).1 ≤ init.1 ∧
    (∀ e ∈ l, (foldBest init l).1 ≤ e.1) ∧
    (foldBest init (l ++ l2)).1 ≤ (foldBest init l).1 := by
  refine ⟨?_, ?_, updateBest_fst_le _ _, foldBest_fst_le_init _ _,
    foldBest_fst_le_mem _ _, ?_⟩
  · unfold updateBest; split
    · exact Or.inr rfl
    · exact Or.inl rfl
  · intro hne
    unfold updateBest at hne ⊢
    split at hne
    · refine ⟨by assumption, ?_⟩
      rw [if_pos]; assumption
    · exact absurd rfl hne
  · unfold foldBest
    rw [List.foldl_append]
    exact foldBest_fst_le_init l2 _

/-- C3 (witness): concrete run of the tracker over two evaluations. -/
theorem bestTracker_correct_witness :
    (foldBest ((5 : ℝ), (0 : Nat)) [((3 : ℝ), 1), ((4 : ℝ), 2)]).1 ≤ 3 ∧
    updateBest ((5 : ℝ), (0 : Nat)) ((3 : ℝ), 1) = ((3 : ℝ), 1) := by
  constructor
  · exact (bestTracker_correct ((5 : ℝ), (0 : Nat)) ((5 : ℝ), 0) ((5 : ℝ), 0)
      [((3 : ℝ), 1), ((4 : ℝ), 2)] []).2.2.2.2.1 ((3 : ℝ), 1) (by simp)
  · have h := (bestTracker_correct ((5 : ℝ), (0 : Nat)) ((3 : ℝ), 1) ((5 : ℝ), 0)
      ([] : List (ℝ × Nat)) []).2.1
    refine (h ?_).2
    unfold updateBest
    rw [if_pos (by norm_num)]
    intro hcontra
    have := congrArg Prod.fst hcontra
    norm_num at this

/-- C2: the retry loop of `_computeTrajectory` with its default bound of 1000
attempts returns the fatal error (`none`) iff all 1000 attempts fail (throw
or produce a NaN), and returns the trajectory of the first exception-free,
NaN-free attempt as soon as one occurs. -/
theorem computeTrajectory_retry {T : Type} (att : Nat → AttemptResult T)
    (hasNaN : T → Bool) :
    (computeTrajectoryDefault att hasNaN = none ↔
      ∀ i < 1000, attemptFailed hasNaN (att i) = true) ∧
    (∀ i < 1000, (∀ j < i, attemptFailed hasNaN (att j) = true) →
      attemptFailed hasNaN (att i) = false →
      computeTrajectoryDefault att hasNaN = some (att i).traj) := by
  constructor
  · have h := computeLoop_none_iff att hasNaN 1000 0
    simpa [computeTrajectoryDefault, computeTrajectory] using h
  · intro i hi hfail hok
    have h := computeLoop_first_success att hasNaN 1000 0 i hi
      (by simpa using hfail) (by simpa using hok)
    simpa [computeTrajectoryDefault, computeTrajectory] using h

/-- C2 (witness): when the very first attempt succeeds, its trajectory is
returned. -/
theorem computeTrajectory_retry_witness :
    computeTrajectoryDefault (fun _ => ⟨false, (0 : Nat)⟩) (fun _ => false) =
      some 0 := by
  have h := (computeTrajectory_retry (fun _ => AttemptResult.mk false (0 : Nat))
    (fun _ => false)).2 0 (by norm_num)
    (fun j hj => absurd hj (Nat.not_lt_zero j)) rfl
  exact h

theorem seqLoop_error_msgs (orbiting : List OrbitingBody) :
    ∀ (toks : List (List Char)) (first : Bool) (attractor : Nat) (ids : List Nat)
      (msg : List Char),
      seqLoop orbiting toks first attractor ids = Except.error msg →
      msg = errTooShort ∨ msg = errInvalidInput ∨ msg = errDifferentAttractor := by
  intro toks
  induction toks with
  | nil =>
    intro first attractor ids msg h
    simp only [seqLoop] at h
    split at h
    · injection h with h
      exact Or.inl h.symm
    · cases h
  | cons tok rest ih =>
    intro first attractor ids msg h
    rcases hfind : findBody orbiting tok with _ | b
    · simp only [seqLoop, hfind] at h
      injection h with h
      exact Or.inr (Or.inl h.symm)
    · cases first with
      | true =>
        simp only [seqLoop, hfind, if_pos] at h
        exact ih false b.attractorId (ids ++ [b.id]) msg h
      | false =>
        simp only [seqLoop, hfind, Bool.false_eq_true, if_false] at h
        split at h
        · injection h with h
          exact Or.inr (Or.inr h.symm)
        · exact ih false attractor (ids ++ [b.id]) msg h

theorem seqLoop_rest_ok (orbiting : List OrbitingBody) :
    ∀ (toks : List (List Char)) (attractor : Nat) (ids : List Nat),
      (∃ ids2, seqLoop orbiting toks false attractor ids = Except.ok ids2) ↔
      ((∀ t ∈ toks, ∃ b, findBody orbiting t = some b ∧ b.attractorId = attractor) ∧
        2 ≤ ids.length + toks.length) := by
  intro toks
  induction toks with
  | nil =>
    intro attractor ids
    simp only [seqLoop, List.length_nil, Nat.add_zero, List.not_mem_nil,
      false_implies, implies_true, true_and]
    by_cases hlen : ids.length ≤ 1
    · rw [if_pos hlen]
      constructor
      · rintro ⟨ids2, h⟩; cases h
      · intro h2; omega
    · rw [if_neg hlen]
      constructor
      · intro _; omega
      · intro _; exact ⟨ids, rfl⟩
  | cons tok rest ih =>
    intro attractor ids
    rcases hfind : findBody orbiting tok with _ | b
    · simp only [seqLoop, hfind]
      constructor
      · rintro ⟨ids2, h⟩; cases h
      · rintro ⟨hall, -⟩
        obtain ⟨b, hb, -⟩ := hall tok (List.mem_cons_self tok rest)
        rw [hfind] at hb
        cases hb
    · simp only [seqLoop, hfind, Bool.false_eq_true, if_false]
      by_cases hattr : b.attractorId = attractor
      · rw [if_neg (by simpa using hattr)]
        rw [ih attractor (ids ++ [b.id])]
        constructor
        · rintro ⟨hall, hlen⟩
          refine ⟨?_, ?_⟩
          · intro t ht
            rcases List.mem_cons.1 ht with h | h
            · subst h; exact ⟨b, hfind, hattr⟩
            · exact hall t h
          · simp only [List.length_append, List.length_singleton] at hlen
            simp only [List.length_cons]
            omega
        · rintro ⟨hall, hlen⟩
          refine ⟨?_, ?_⟩
          · intro t ht
            exact hall t (List.mem_cons_of_mem tok ht)
          · simp only [List.length_append, List.length_singleton]
            simp only [List.length_cons] at hlen
            omega
      · rw [if_pos (by simpa using hattr)]
        constructor
        · rintro ⟨ids2, h⟩; cases h
        · rintro ⟨hall, -⟩
          obtain ⟨b2, hb2, hb2a⟩ := hall tok (List.mem_cons_self tok rest)
          rw [hfind] at hb2
          injection hb2 with hb2
          subst hb2
          exact absurd hb2a hattr

/-- C5: constructing a flyby sequence from a string succeeds exactly when
every dash-separated token of the trimmed input matches a body, all matched
bodies orbit the first matched body's attractor, and at least two tokens were
parsed; in every other case it fails with one of the three descriptive errors
(`Except.error` carries no id list, so no `FlybySequence` is constructed and
nothing downstream — in particular the evolutionary loop — can be reached
from this call). -/
theorem fromString_validation (str : List Char) (orbiting : List OrbitingBody) :
    ((∃ ids, fromString str orbiting = Except.ok ids) ↔
      validSeq orbiting (split '-' (trim str)) = true) ∧
    (∀ msg, fromString str orbiting = Except.error msg →
      msg = errTooShort ∨ msg = errInvalidInput ∨ msg = errDifferentAttractor) := by
  constructor
  · unfold fromString
    cases htoks : split '-' (trim str) with
    | nil =>
      simp only [seqLoop, List.length_nil, Nat.le_refl, if_pos, validSeq]
      constructor
      · rintro ⟨ids, h⟩
        simp at h
      · intro h
        simp at h
    | cons t0 rest =>
      rcases hfind : findBody orbiting t0 with _ | b0
      · simp only [seqLoop, hfind]
        constructor
        · rintro ⟨ids, h⟩; cases h
        · intro h
          simp only [validSeq, List.all_cons, hfind, Option.isSome_none,
            Bool.false_and, Bool.and_eq_true, Bool.false_eq_true] at h
      · simp only [seqLoop, hfind, if_pos, List.nil_append]
        rw [seqLoop_rest_ok orbiting rest b0.attractorId [b0.id]]
        simp only [validSeq, List.all_cons, hfind, Option.isSome_some,
          Bool.true_and, Bool.and_eq_true, List.all_eq_true, decide_eq_true_eq,
          List.length_cons, List.length_singleton]
        constructor
        · rintro ⟨hall, hlen⟩
          refine ⟨⟨?_, ?_⟩, ?_⟩
          · intro t ht
            obtain ⟨b, hb, -⟩ := hall t ht
            rw [hb]; rfl
          · intro t ht
            obtain ⟨b, hb, hba⟩ := hall t ht
            rw [hb]
            simp [hba]
          · simp only [List.length_append, List.length_cons, List.length_nil] at hlen ⊢
            omega
        · rintro ⟨⟨hsome, hmatch⟩, hlen⟩
          refine ⟨?_, ?_⟩
          swap
          · simp only [List.length_append, List.length_cons, List.length_nil] at hlen ⊢
            omega
          intro t ht
          have h1 := hsome t ht
          rcases hb : findBody orbiting t with _ | b
          · rw [hb] at h1; cases h1
          · have h2 := hmatch t ht
            rw [hb] at h2
            simp only [decide_eq_true_eq] at h2
            exact ⟨b, rfl, h2⟩
  · intro msg h
    exact seqLoop_error_msgs orbiting _ _ _ _ msg h

/-- C5 (witness): a valid two-body string constructs a sequence, and a
one-body string fails with the length error. -/
theorem fromString_validation_witness :
    (∃ ids, fromString "Ke-Du".data
      [⟨1, "Kerbin".data, 0⟩, ⟨2, "Duna".data, 0⟩] = Except.ok ids) ∧
    (fromString "Ke".data [⟨1, "Kerbin".data, 0⟩, ⟨2, "Duna".data, 0⟩] =
        Except.error errTooShort →
      errTooShort = errTooShort ∨ errTooShort = errInvalidInput ∨
        errTooShort = errDifferentAttractor) := by
  constructor
  · exact (fromString_validation "Ke-Du".data
      [⟨1, "Kerbin".data, 0⟩, ⟨2, "Duna".data, 0⟩]).1.mpr (by decide)
  · exact (fromString_validation "Ke".data
      [⟨1, "Kerbin".data, 0⟩, ⟨2, "Duna".data, 0⟩]).2 errTooShort

/-- C1: for every successfully assembled trajectory, the fitness evaluator
returns `totDV + totDV*|finalInclination|*0.1 + periVelCost
+ max(0, totalDuration - maxDuration)*totDV`, where `periVelCost` is the
circularization delta-V at radius `destAltitude + finalBodyRadius` when the
settings specify no insertion burn and `0` otherwise; in particular the
duration penalty term vanishes whenever `totalDuration ≤ maxDuration`. -/
theorem fitness_formula (system : Nat → SystemBody) (settings : TrajectoryUserSettings)
    (traj : TrajData) :
    (fitness system settings traj =
      traj.totalDeltaV
        + traj.totalDeltaV * |(traj.steps.getLastD dfltStep).orbitElts.inclination| * 0.1
        + (if settings.noInsertion then
            velocityAtRadius (traj.steps.getLastD dfltStep).orbitElts
                (system (traj.steps.getLastD dfltStep).attractorId)
                (settings.destAltitude
                  + (system (traj.steps.getLastD dfltStep).attractorId).radius)
              - circularVelocity (system (traj.steps.getLastD dfltStep).attractorId)
                (settings.destAltitude
                  + (system (traj.steps.getLastD dfltStep).attractorId).radius)
           else 0)
        + max 0 (traj.totalDuration - settings.maxDuration) * traj.totalDeltaV) ∧
    (traj.totalDuration ≤ settings.maxDuration →
      fitness system settings traj =
        traj.totalDeltaV
          + traj.totalDeltaV * |(traj.steps.getLastD dfltStep).orbitElts.inclination| * 0.1
          + (if settings.noInsertion then
              velocityAtRadius (traj.steps.getLastD dfltStep).orbitElts
                  (system (traj.steps.getLastD dfltStep).attractorId)
                  (settings.destAltitude
                    + (system (traj.steps.getLastD dfltStep).attractorId).radius)
                - circularVelocity (system (traj.steps.getLastD dfltStep).attractorId)
                  (settings.destAltitude
                    + (system (traj.steps.getLastD dfltStep).attractorId).radius)
             else 0)) := by
  have h1 : fitness system settings traj =
      traj.totalDeltaV
        + traj.totalDeltaV * |(traj.steps.getLastD dfltStep).orbitElts.inclination| * 0.1
        + (if settings.noInsertion then
            velocityAtRadius (traj.steps.getLastD dfltStep).orbitElts
                (system (traj.steps.getLastD dfltStep).attractorId)
                (settings.destAltitude
                  + (system (traj.steps.getLastD dfltStep).attractorId).radius)
              - circularVelocity (system (traj.steps.getLastD dfltStep).attractorId)
                (settings.destAltitude
                  + (system (traj.steps.getLastD dfltStep).attractorId).radius)
           else 0)
        + max 0 (traj.totalDuration - settings.maxDuration) * traj.totalDeltaV := rfl
  refine ⟨h1, ?_⟩
  intro hdur
  have hmax : max 0 (traj.totalDuration - settings.maxDuration) = 0 :=
    max_eq_left (by linarith)
  rw [h1, hmax, zero_mul, add_zero]

/-- C1 (witness): a trajectory within the duration limit has zero duration
penalty. -/
theorem fitness_formula_witness :
    fitness (fun _ => ⟨1, 1⟩) ⟨false, 0, 10⟩ ⟨5, 3, []⟩ = 5 := by
  have h := (fitness_formula (fun _ => ⟨1, 1⟩) ⟨false, 0, 10⟩ ⟨5, 3, []⟩).2
    (by norm_num)
  simp only [List.getLastD_nil] at h
  rw [h]
  norm_num [dfltStep]

/-- C10: for every ejection maneuver, the dot product of the two normalized
plane-projected directions is clamped to `[-1, 1]` before `acos`, and the
resulting ejection angle always lies in the closed interval `[-180, 180]`
degrees. -/
theorem ejectionAngle_range (nodePos bodyVel : ℝ × ℝ) (d : ℝ) :
    (-1 ≤ clampUnit d ∧ clampUnit d ≤ 1) ∧
    -180 ≤ ejectionAngle nodePos bodyVel ∧ ejectionAngle nodePos bodyVel ≤ 180 := by
  have hclamp : ∀ x : ℝ, -1 ≤ clampUnit x ∧ clampUnit x ≤ 1 := fun x =>
    ⟨le_min (le_max_right x (-1)) (by norm_num), min_le_right _ _⟩
  refine ⟨hclamp d, ?_⟩
  simp only [ejectionAngle]
  set s1 := (normalize2 nodePos).1 * (normalize2 bodyVel).1
    + (normalize2 nodePos).2 * (normalize2 bodyVel).2 with hs1
  set s2 := (normalize2 nodePos).1 * (normalize2 bodyVel).2
    - (normalize2 nodePos).2 * (normalize2 bodyVel).1 with hs2
  set A := Real.arccos (clampUnit s1) * 180 / Real.pi with hA
  have hA0 : 0 ≤ A := by
    apply div_nonneg _ (le_of_lt Real.pi_pos)
    exact mul_nonneg (Real.arccos_nonneg _) (by norm_num)
  have hA1 : A ≤ 180 := by
    rw [hA, div_le_iff₀ Real.pi_pos]
    nlinarith [Real.arccos_le_pi (clampUnit s1), Real.pi_pos]
  rcases Real.sign_apply_eq s2 with h | h | h <;> rw [h] <;> constructor <;> nlinarith

/-- C7: every `Orbit` satisfies, from construction onward (the structure is
immutable and every operation is a pure function of it):
`orbitalParam = a(1-e²)`, `meanMotion = sqrt(μ/|a|³)`, the periapsis and
apoapsis fields are defined — with `periapsis = a(1-e)` and
`apoapsis = 2a - periapsis` — exactly when `e < 1` and are undefined
otherwise, and the three direction vectors hold the values derived at
construction by the axis-angle rotations of the reference direction. -/
theorem orbit_invariants (data : IOrbitData) (attractor : ICelestialBody) (b : Bool) :
    (mkOrbit data attractor b).orbitalParam
        = data.semiMajorAxis * (1 - data.eccentricity ^ 2) ∧
    (mkOrbit data attractor b).meanMotion
        = Real.sqrt (attractor.stdGravParam / |data.semiMajorAxis| ^ 3) ∧
    (data.eccentricity < 1 →
      (mkOrbit data attractor b).periapsis
          = some (data.semiMajorAxis * (1 - data.eccentricity)) ∧
      (mkOrbit data attractor b).apoapsis
          = some (2 * data.semiMajorAxis
              - data.semiMajorAxis * (1 - data.eccentricity))) ∧
    (1 ≤ data.eccentricity →
      (mkOrbit data attractor b).periapsis = none ∧
      (mkOrbit data attractor b).apoapsis = none) ∧
    (mkOrbit data attractor b).ascNodeDir
        = applyAxisAngle (1, 0, 0) (0, 1, 0) (mkOrbit data attractor b).ascNodeLongitude ∧
    (mkOrbit data attractor b).normal
        = applyAxisAngle (0, 1, 0) (mkOrbit data attractor b).ascNodeDir
            (mkOrbit data attractor b).inclination ∧
    (mkOrbit data attractor b).periapsisDir
        = applyAxisAngle (mkOrbit data attractor b).ascNodeDir
            (mkOrbit data attractor b).normal (mkOrbit data attractor b).argOfPeriapsis := by
  refine ⟨rfl, rfl, ?_, ?_, rfl, rfl, rfl⟩
  · intro he
    constructor
    · show (if data.eccentricity < 1 then _ else none) = _
      rw [if_pos he]
    · show (if data.eccentricity < 1 then _ else none) = _
      rw [if_pos he]
  · intro he
    constructor
    · show (if data.eccentricity < 1 then _ else none) = none
      rw [if_neg (not_lt.2 he)]
    · show (if data.eccentricity < 1 then _ else none) = none
      rw [if_neg (not_lt.2 he)]

/-- C7 (witness): concrete orbits on both sides of `e = 1`. -/
theorem orbit_invariants_witness :
    (mkOrbit ⟨2, 1/2, 0, 0, 0⟩ ⟨1⟩ true).periapsis = some (2 * (1 - 1/2)) ∧
    (mkOrbit ⟨2, 3, 0, 0, 0⟩ ⟨1⟩ true).periapsis = none := by
  constructor
  · exact ((orbit_invariants ⟨2, 1/2, 0, 0, 0⟩ ⟨1⟩ true).2.2.1 (by norm_num)).1
  · exact ((orbit_invariants ⟨2, 3, 0, 0, 0⟩ ⟨1⟩ true).2.2.2.1 (by norm_num)).1

/-- C9: for every orbit with eccentricity in `(0,1)`, the radius at true
anomaly `0` equals the periapsis field and the radius at true anomaly `π`
equals the apoapsis field, exactly over real arithmetic. -/
theorem radius_peri_apo (data : IOrbitData) (attractor : ICelestialBody) (b : Bool)
    (h0 : 0 < data.eccentricity) (h1 : data.eccentricity < 1) :
    (mkOrbit data attractor b).periapsis
        = some (radius (mkOrbit data attractor b) 0) ∧
    (mkOrbit data attractor b).apoapsis
        = some (radius (mkOrbit data attractor b) Real.pi) := by
  have hperi : (mkOrbit data attractor b).periapsis
      = some (data.semiMajorAxis * (1 - data.eccentricity)) := by
    show (if data.eccentricity < 1 then _ else none) = _
    rw [if_pos h1]
  have hapo : (mkOrbit data attractor b).apoapsis
      = some (2 * data.semiMajorAxis - data.semiMajorAxis * (1 - data.eccentricity)) := by
    show (if data.eccentricity < 1 then _ else none) = _
    rw [if_pos h1]
  have he1 : (1 : ℝ) + data.eccentricity ≠ 0 := by linarith
  have he2 : (1 : ℝ) - data.eccentricity ≠ 0 := by linarith
  constructor
  · rw [hperi]
    congr 1
    show data.semiMajorAxis * (1 - data.eccentricity)
      = (mkOrbit data attractor b).orbitalParam
        / (1 + (mkOrbit data attractor b).eccentricity * Real.cos 0)
    show data.semiMajorAxis * (1 - data.eccentricity)
      = data.semiMajorAxis * (1 - data.eccentricity ^ 2)
        / (1 + data.eccentricity * Real.cos 0)
    rw [Real.cos_zero, mul_one]
    field_simp
    ring
  · rw [hapo]
    congr 1
    show 2 * data.semiMajorAxis - data.semiMajorAxis * (1 - data.eccentricity)
      = data.semiMajorAxis * (1 - data.eccentricity ^ 2)
        / (1 + data.eccentricity * Real.cos Real.pi)
    rw [Real.cos_pi]
    rw [mul_neg_one]
    rw [eq_div_iff (by intro hz; apply he2; linarith [hz])]
    ring

/-- C9 (witness): a concrete orbit with `e = 1/2`. -/
theorem radius_peri_apo_witness :
    (mkOrbit ⟨2, 1/2, 0, 0, 0⟩ ⟨1⟩ true).periapsis
        = some (radius (mkOrbit ⟨2, 1/2, 0, 0, 0⟩ ⟨1⟩ true) 0) ∧
    (mkOrbit ⟨2, 1/2, 0, 0, 0⟩ ⟨1⟩ true).apoapsis
        = some (radius (mkOrbit ⟨2, 1/2, 0, 0, 0⟩ ⟨1⟩ true) Real.pi) :=
  radius_peri_apo ⟨2, 1/2, 0, 0, 0⟩ ⟨1⟩ true (by norm_num) (by norm_num)

theorem newtonGo_stop (f df : ℝ → ℝ) (fuel : Nat) (prevX x : ℝ)
    (h : |x - prevX| ≤ 1e-15) : newtonGo f df fuel prevX x = x := by
  cases fuel with
  | zero => rfl
  | succ n => rw [newtonGo, if_neg (not_lt.2 h)]

theorem newtonGo_zero (f df : ℝ → ℝ) (prevX x : ℝ) : newtonGo f df 0 prevX x = x := rfl

theorem newtonGo_returns_iterate (f df : ℝ → ℝ) (M : ℝ) :
    ∀ (fuel k : Nat), ∃ m, k + 1 ≤ m ∧ m ≤ k + 1 + fuel ∧
      newtonGo f df fuel (newtonSeq f df M k) (newtonSeq f df M (k + 1))
        = newtonSeq f df M m := by
  intro fuel
  induction fuel with
  | zero => intro k; exact ⟨k + 1, le_refl _, by omega, rfl⟩
  | succ n ih =>
    intro k
    by_cases h : (1e-15 : ℝ) < |newtonSeq f df M (k + 1) - newtonSeq f df M k|
    · rw [newtonGo, if_pos h]
      have hstep : newtonSeq f df M (k + 1)
          - f (newtonSeq f df M (k + 1)) / df (newtonSeq f df M (k + 1))
          = newtonSeq f df M (k + 2) := rfl
      rw [hstep]
      obtain ⟨m, h1, h2, h3⟩ := ih (k + 1)
      exact ⟨m, by omega, by omega, h3⟩
    · rw [newtonGo, if_neg h]
      exact ⟨k + 1, le_refl _, by omega, rfl⟩

theorem newton_returns_iterate (f df : ℝ → ℝ) (M : ℝ) :
    ∃ k, 1 ≤ k ∧ k ≤ 1001 ∧ newton f df M = newtonSeq f df M k := by
  obtain ⟨m, h1, h2, h3⟩ := newtonGo_returns_iterate f df M 1000 0
  refine ⟨m, h1, by omega, ?_⟩
  have h0 : newtonSeq f df M 0 = M := rfl
  have hstep : newtonSeq f df M 1 = M - f M / df M := by
    show newtonSeq f df M 0 - f (newtonSeq f df M 0) / df (newtonSeq f df M 0) = _
    rw [h0]
  rw [h0, hstep] at h3
  exact h3

/-- C4: the Kepler anomaly solver is a total, terminating function: the
Newton iteration always returns one of its own iterates (at most the 1001st,
counting the unconditional first step), it stops as soon as
`|x - prevX| ≤ 1e-15` or when the 1000-iteration cap is exhausted, and
`solveTrueAnomalyAtDate` always returns the half-angle tangent conversion of
the last iterate — elliptical for `e < 1`, hyperbolic otherwise — never
raising a divergence error. -/
theorem solveTrueAnomaly_total (f df : ℝ → ℝ) (M : ℝ) (o : Orbit) (m0 ep d : ℝ) :
    (∃ k, 1 ≤ k ∧ k ≤ 1001 ∧ newton f df M = newtonSeq f df M k) ∧
    (∀ (fuel : Nat) (prevX x : ℝ), |x - prevX| ≤ 1e-15 →
      newtonGo f df fuel prevX x = x) ∧
    (∀ prevX x : ℝ, newtonGo f df 0 prevX x = x) ∧
    (o.eccentricity < 1 → solveTrueAnomalyAtDate o m0 ep d =
      2 * Real.arctan (Real.sqrt ((1 + o.eccentricity) / (1 - o.eccentricity)) *
        Real.tan (keplerE o.eccentricity (m0 + o.meanMotion * (d - ep)) * 0.5))) ∧
    (1 ≤ o.eccentricity → solveTrueAnomalyAtDate o m0 ep d =
      2 * Real.arctan (Real.sqrt ((o.eccentricity + 1) / (o.eccentricity - 1)) *
        Real.tanh (keplerH o.eccentricity (m0 + o.meanMotion * (d - ep)) * 0.5))) := by
  refine ⟨newton_returns_iterate f df M,
    fun fuel prevX x h => newtonGo_stop f df fuel prevX x h,
    fun prevX x => newtonGo_zero f df prevX x, ?_, ?_⟩
  · intro h
    simp only [solveTrueAnomalyAtDate]
    rw [if_pos h]
  · intro h
    simp only [solveTrueAnomalyAtDate]
    rw [if_neg (not_lt.2 h)]

/-- C4 (witness): the stopping rule at a converged iterate and the elliptical
branch at a concrete circular orbit. -/
theorem solveTrueAnomaly_total_witness :
    newtonGo (fun x => x) (fun _ => 1) 5 0 0 = 0 ∧
    solveTrueAnomalyAtDate (mkOrbit ⟨1, 0, 0, 0, 0⟩ ⟨1⟩ false) 0 0 0 =
      2 * Real.arctan
        (Real.sqrt ((1 + (mkOrbit ⟨1, 0, 0, 0, 0⟩ ⟨1⟩ false).eccentricity) /
            (1 - (mkOrbit ⟨1, 0, 0, 0, 0⟩ ⟨1⟩ false).eccentricity)) *
          Real.tan (keplerE (mkOrbit ⟨1, 0, 0, 0, 0⟩ ⟨1⟩ false).eccentricity
            (0 + (mkOrbit ⟨1, 0, 0, 0, 0⟩ ⟨1⟩ false).meanMotion * (0 - 0)) * 0.5)) := by
  constructor
  · exact (solveTrueAnomaly_total (fun x => x) (fun _ => 1) 0
      (mkOrbit ⟨1, 0, 0, 0, 0⟩ ⟨1⟩ false) 0 0 0).2.1 5 0 0 (by norm_num)
  · exact (solveTrueAnomaly_total (fun x => x) (fun _ => 1) 0
      (mkOrbit ⟨1, 0, 0, 0, 0⟩ ⟨1⟩ false) 0 0 0).2.2.2.1
      (by show (0 : ℝ) < 1; norm_num)

theorem keplerE_zero (M : ℝ) : keplerE 0 M = M := by
  unfold keplerE newton
  show newtonGo _ _ 1000 M (M - (M - 0 * Real.sin M - M) / (1 - 0 * Real.cos M)) = M
  have h1 : M - (M - 0 * Real.sin M - M) / (1 - 0 * Real.cos M) = M := by
    norm_num
  rw [h1]
  exact newtonGo_stop _ _ 1000 M M (by norm_num)

/-- C6 (counterexample): for `e = 0` and `M = 3π/2` (epoch = date, so the
propagated mean anomaly is `M`), the solver returns the true anomaly `-π/2`
and the reconstructed mean anomaly is `-π/2`, which differs from `M` by `2π`:
the half-angle tangent conversion reduces the anomaly to its principal
branch, so the round-trip does not recover every `M` within `1e-10`. -/
theorem kepler_roundtrip_counterexample :
    ¬ (|meanAnomalyFromTrueAnomaly 0
        (solveTrueAnomalyAtDate (mkOrbit ⟨1, 0, 0, 0, 0⟩ ⟨1⟩ false)
          (3 * Real.pi / 2) 0 0)
      - 3 * Real.pi / 2| ≤ 1e-10) := by
  have hecc : (mkOrbit ⟨1, 0, 0, 0, 0⟩ ⟨1⟩ false).eccentricity = 0 := rfl
  have hnu : solveTrueAnomalyAtDate (mkOrbit ⟨1, 0, 0, 0, 0⟩ ⟨1⟩ false)
      (3 * Real.pi / 2) 0 0 = -(Real.pi / 2) := by
    simp only [solveTrueAnomalyAtDate, hecc]
    rw [if_pos (by norm_num : (0 : ℝ) < 1)]
    simp only [sub_self, mul_zero, add_zero]
    rw [keplerE_zero]
    have harg : 3 * Real.pi / 2 * 0.5 = Real.pi - Real.pi / 4 := by ring
    rw [harg, Real.tan_pi_sub, Real.tan_pi_div_four]
    norm_num
    ring
  rw [hnu]
  have hrec : meanAnomalyFromTrueAnomaly 0 (-(Real.pi / 2)) = -(Real.pi / 2) := by
    simp only [meanAnomalyFromTrueAnomaly]
    have harg : -(Real.pi / 2) * 0.5 = -(Real.pi / 4) := by ring
    rw [harg, Real.tan_neg, Real.tan_pi_div_four]
    norm_num
    ring
  rw [hrec]
  intro habs
  rw [abs_le] at habs
  have h3 : (3 : ℝ) < Real.pi := Real.pi_gt_three
  nlinarith [habs.1]

/-- C6 (amended): the round-trip recovers the propagated mean anomaly `M`
(indeed exactly, hence within `1e-10`) provided the solver's Newton iterate
`E` solves Kepler's equation exactly and lies on the principal branch
`|E| < π`; in general (as the counterexample shows) the reconstruction
recovers the iterate's mean anomaly only modulo `2π`. -/
theorem kepler_roundtrip_amended (o : Orbit) (m0 ep d e M : ℝ)
    (he : o.eccentricity = e) (hM : m0 + o.meanMotion * (d - ep) = M)
    (he0 : 0 ≤ e) (he1 : e < 1)
    (hE : |keplerE e M| < Real.pi)
    (hsolve : keplerE e M - e * Real.sin (keplerE e M) = M) :
    |meanAnomalyFromTrueAnomaly e (solveTrueAnomalyAtDate o m0 ep d) - M| ≤ 1e-10 := by
  obtain ⟨E, hEdef⟩ : ∃ E, keplerE e M = E := ⟨_, rfl⟩
  rw [hEdef] at hE hsolve
  have hsolveEq : solveTrueAnomalyAtDate o m0 ep d
      = 2 * Real.arctan (Real.sqrt ((1 + e) / (1 - e)) * Real.tan (E * 0.5)) := by
    simp only [solveTrueAnomalyAtDate, he, hM]
    rw [if_pos he1, hEdef]
  rw [hsolveEq]
  simp only [meanAnomalyFromTrueAnomaly]
  have h1e : (0 : ℝ) < 1 + e := by linarith
  have h2e : (0 : ℝ) < 1 - e := by linarith
  have hhalf : 2 * Real.arctan (Real.sqrt ((1 + e) / (1 - e)) * Real.tan (E * 0.5)) * 0.5
      = Real.arctan (Real.sqrt ((1 + e) / (1 - e)) * Real.tan (E * 0.5)) := by ring
  rw [hhalf, Real.tan_arctan]
  have hsqrt : Real.sqrt ((1 - e) / (1 + e))
        * (Real.sqrt ((1 + e) / (1 - e)) * Real.tan (E * 0.5))
      = Real.tan (E * 0.5) := by
    rw [← mul_assoc, ← Real.sqrt_mul (by positivity)]
    rw [show (1 - e) / (1 + e) * ((1 + e) / (1 - e)) = 1 by
      field_simp]
    rw [Real.sqrt_one, one_mul]
  rw [hsqrt]
  have harctan : Real.arctan (Real.tan (E * 0.5)) = E * 0.5 := by
    apply Real.arctan_tan
    · rw [abs_lt] at hE
      nlinarith [hE.1]
    · rw [abs_lt] at hE
      nlinarith [hE.2]
  rw [harctan]
  have hfin : 2 * (E * 0.5) = E := by ring
  rw [hfin, hsolve]
  simp only [sub_self, abs_zero]
  norm_num

/-- C6 (witness): for `e = 0`, `M = 1` the solver converges exactly and the
round-trip recovers `M`. -/
theorem kepler_roundtrip_amended_witness :
    |meanAnomalyFromTrueAnomaly 0
      (solveTrueAnomalyAtDate (mkOrbit ⟨1, 0, 0, 0, 0⟩ ⟨1⟩ false) 1 0 0) - 1| ≤ 1e-10 := by
  apply kepler_roundtrip_amended (mkOrbit ⟨1, 0, 0, 0, 0⟩ ⟨1⟩ false) 1 0 0 0 1
  · rfl
  · ring
  · norm_num
  · norm_num
  · rw [keplerE_zero]
    rw [abs_one]
    linarith [Real.pi_gt_three]
  · rw [keplerE_zero]
    norm_num

end KSPMGA
